import Mathlib

/-!
Verification of the response-normalization layer of the LegalLens frontend
(`src/services/api.ts` and the dashboard heuristics in `src/pages`).

We shallowly embed the JavaScript values flowing through the normalizers as
an inductive type `JVal` (JSON values extended with the JavaScript
`undefined`), and translate the TypeScript functions
`splitIntoPoints`, `normalizeSummarizeResponse`, `normalizeRisksResponse`,
`findKeywords`, `severityForTag`, `extractCitationFromText` and
`generateHeuristicRisks` into total Lean functions.  Property access on
`null`/`undefined` and the `in` operator on `null` throw in JavaScript, so
the two normalizers are embedded in the `Except Unit` monad; every other
step of the source is total.  JSON numbers are modelled as rationals
(JSON cannot carry NaN or infinities) and `Math.round x` as the integer
`floor (x + 1/2)`, which is its semantics on finite values.
-/

/-- JavaScript values as seen by the normalizers: JSON values plus
`undefined` (the result of reading an absent property). Objects are
association lists in insertion order, as produced by `JSON.parse`
(duplicate keys collapsed). -/
inductive JVal where
  | undef : JVal
  | null : JVal
  | bool : Bool → JVal
  | num : ℚ → JVal
  | str : String → JVal
  | arr : List JVal → JVal
  | obj : List (String × JVal) → JVal
  deriving Repr

mutual

/-- Structural equality test for `JVal`. -/
def beqV : JVal → JVal → Bool
  | .undef, .undef => true
  | .null, .null => true
  | .bool a, .bool b => a = b
  | .num a, .num b => a = b
  | .str a, .str b => a = b
  | .arr xs, .arr ys => beqL xs ys
  | .obj xs, .obj ys => beqFL xs ys
  | _, _ => false

/-- Structural equality test for lists of `JVal`. -/
def beqL : List JVal → List JVal → Bool
  | [], [] => true
  | x :: xs, y :: ys => beqV x y && beqL xs ys
  | _, _ => false

/-- Structural equality test for field lists. -/
def beqFL : List (String × JVal) → List (String × JVal) → Bool
  | [], [] => true
  | (k, x) :: xs, (l, y) :: ys => k = l && beqV x y && beqFL xs ys
  | _, _ => false

end

mutual

theorem beqV_iff : ∀ (a b : JVal), beqV a b = true ↔ a = b
  | .undef, b => by cases b <;> simp [beqV]
  | .null, b => by cases b <;> simp [beqV]
  | .bool _, b => by cases b <;> simp [beqV]
  | .num _, b => by cases b <;> simp [beqV]
  | .str _, b => by cases b <;> simp [beqV]
  | .arr xs, b => by
      cases b <;> simp [beqV]
      case arr ys => exact beqL_iff xs ys
  | .obj fs, b => by
      cases b <;> simp [beqV]
      case obj gs => exact beqFL_iff fs gs

theorem beqL_iff : ∀ (xs ys : List JVal), beqL xs ys = true ↔ xs = ys
  | [], [] => by simp [beqL]
  | [], _ :: _ => by simp [beqL]
  | _ :: _, [] => by simp [beqL]
  | x :: xs, y :: ys => by
      simp [beqL, beqV_iff x y, beqL_iff xs ys]

theorem beqFL_iff : ∀ (xs ys : List (String × JVal)), beqFL xs ys = true ↔ xs = ys
  | [], [] => by simp [beqFL]
  | [], _ :: _ => by simp [beqFL]
  | _ :: _, [] => by simp [beqFL]
  | (k, x) :: xs, (l, y) :: ys => by
      simp [beqFL, beqV_iff x y, beqFL_iff xs ys, Prod.ext_iff]

end

instance : DecidableEq JVal := fun a b =>
  if h : beqV a b = true then .isTrue ((beqV_iff a b).mp h)
  else .isFalse (fun he => h ((beqV_iff a b).mpr he))

namespace JVal

/-- JavaScript truthiness: `undefined`, `null`, `false`, `0` and `""` are
falsy, everything else (including every object and array) is truthy. -/
def truthy : JVal → Bool
  | .undef => false
  | .null => false
  | .bool b => b
  | .num q => q != 0
  | .str s => s != ""
  | .arr _ => true
  | .obj _ => true

/-- Nullish values, the ones the `??` operator skips. -/
def nullish : JVal → Bool
  | .undef => true
  | .null => true
  | _ => false

/-- The nullish-coalescing operator `a ?? b`. -/
def coalesce (a b : JVal) : JVal :=
  if a.nullish then b else a

/-- `Array.isArray`. -/
def isArr : JVal → Bool
  | .arr _ => true
  | _ => false

/-- `typeof v === 'string'`. -/
def isStr : JVal → Bool
  | .str _ => true
  | _ => false

/-- `typeof v === 'number'`. -/
def isNum : JVal → Bool
  | .num _ => true
  | _ => false

/-- `typeof v === 'object'`: true for plain objects, arrays and `null`. -/
def typeofObject : JVal → Bool
  | .null => true
  | .arr _ => true
  | .obj _ => true
  | _ => false

/-- First binding of a key in an association list (keys are unique in
objects coming from `JSON.parse`). -/
def lookupField : List (String × JVal) → String → JVal
  | [], _ => .undef
  | (k', x) :: rest, k => if k' = k then x else lookupField rest k

/-- Property read `v.k` on a value that is not `null`/`undefined`:
objects yield the stored field or `undefined`; primitives and arrays
yield `undefined` for every key the normalizers read. -/
def getField (v : JVal) (k : String) : JVal :=
  match v with
  | .obj fs => lookupField fs k
  | _ => JVal.undef

/-- The `in` operator, `k in v`.  It throws a `TypeError` when its right
operand is `null` or a primitive; on arrays the keys the source tests are
never present. -/
def jsInE (k : String) (v : JVal) : Except Unit Bool :=
  match v with
  | .obj fs => .ok (fs.any (fun p => p.1 = k))
  | .arr _ => .ok false
  | _ => .error ()

/-- The elements of an array value (used where the source has already
checked `Array.isArray`). -/
def asList : JVal → List JVal
  | .arr xs => xs
  | _ => []

end JVal

/-- `Math.round` on a finite number: floor of `x + 1/2` (halves round
toward positive infinity, as in JavaScript).  `Rat.floor` is used so the
definition evaluates in the kernel. -/
def jsRound (q : ℚ) : ℤ := (q + 1/2).floor

theorem jsRound_eq_floor (q : ℚ) : jsRound q = ⌊q + 1/2⌋ :=
  (Rat.floor_def' (q + 1/2)).trans Rat.floor_def.symm

/-- The whitespace characters relevant to the string inputs under
analysis (the `\s` class restricted to ASCII). -/
def isWsChar (c : Char) : Bool :=
  c = ' ' || c = '\t' || c = '\n' || c = '\r' || c = '\x0b' || c = '\x0c'

/-- `String.prototype.trim` over a character list. -/
def trimChars (cs : List Char) : List Char :=
  ((cs.dropWhile isWsChar).reverse.dropWhile isWsChar).reverse

/-- JavaScript `s.trim()`. -/
def jsTrim (s : String) : String := String.mk (trimChars s.toList)

/-- `s.replace(/\s+/g, ' ')`: collapse every maximal whitespace run to a
single space.  The boolean argument records whether the previous
character was part of a whitespace run. -/
def collapseWsGo : Bool → List Char → List Char
  | _, [] => []
  | inRun, c :: rest =>
    if isWsChar c then
      if inRun then collapseWsGo true rest
      else ' ' :: collapseWsGo true rest
    else c :: collapseWsGo false rest

/-- `s.replace(/\s+/g, ' ').trim()`, the tidying step of `splitIntoPoints`. -/
def tidy (s : String) : String := jsTrim (String.mk (collapseWsGo false s.toList))

/-- Is this character a sentence terminator, `.`, `?` or `!`. -/
def isTerminator (c : Char) : Bool := c = '.' || c = '?' || c = '!'

/-- `s.split(/(?<=[.?!])\s+/)`: split at each maximal whitespace run whose
immediately preceding character is a sentence terminator.  `prev` is the
last character consumed while building the current fragment (`none` at
the start of the string), `sep` is true while consuming a separator run,
`acc` the current fragment reversed. -/
def sentSplitGo : Option Char → Bool → List Char → List Char → List String
  | _, _, acc, [] => [String.mk acc.reverse]
  | prev, sep, acc, c :: rest =>
    if sep then
      if isWsChar c then sentSplitGo prev true acc rest
      else sentSplitGo (some c) false [c] rest
    else
      if isWsChar c && (match prev with | some p => isTerminator p | none => false) then
        String.mk acc.reverse :: sentSplitGo prev true [] rest
      else
        sentSplitGo (some c) false (c :: acc) rest

/-- `s.split(/(?<=[.?!])\s+/)`. -/
def sentSplit (s : String) : List String := sentSplitGo none false [] s.toList

/-- `s.split(/[;,]+/)`: split at each maximal run of commas/semicolons. -/
def commaSplitGo : Bool → List Char → List Char → List String
  | _, acc, [] => [String.mk acc.reverse]
  | sep, acc, c :: rest =>
    if c = ';' || c = ',' then
      if sep then commaSplitGo true acc rest
      else String.mk acc.reverse :: commaSplitGo true [] rest
    else
      if sep then commaSplitGo false [c] rest
      else commaSplitGo false (c :: acc) rest

/-- `s.split(/[;,]+/)`. -/
def commaSplit (s : String) : List String := commaSplitGo false [] s.toList

/-- The sentence fragments of `splitIntoPoints`: split at sentence
boundaries, trim, keep only fragments longer than 10 characters. -/
def sentenceFragments (s : String) : List String :=
  ((sentSplit s).map jsTrim).filter (fun t => t.length > 10)

/-- The comma fragments of `splitIntoPoints`: split at `[;,]+`, trim,
keep the truthy (non-empty) ones — the `.filter(Boolean)` of the source. -/
def commaParts (s : String) : List String :=
  ((commaSplit s).map jsTrim).filter (fun t => t != "")

/-- `splitIntoPoints` from `src/services/api.ts`: sentence split with a
10-character minimum; if that yields at most one fragment, comma split;
otherwise the single-element list holding the trimmed summary. -/
def splitIntoPoints (summary : String) (maxPoints : Nat := 10) : List String :=
  if summary = "" then []
  else
    let sentences := sentenceFragments summary
    if sentences.length > 1 then (sentences.take maxPoints).map tidy
    else
      let parts := commaParts summary
      if parts.length > 1 then (parts.take maxPoints).map tidy
      else [jsTrim summary]

open JVal

/-- `splitIntoPoints(v)` when the argument is an arbitrary JavaScript
value, as at the call sites that only check truthiness: falsy arguments
return `[]` at the `if (!summary)` guard, a string argument proceeds
normally, and any truthy non-string argument throws a `TypeError` at
`summary.split(...)`. -/
def splitIntoPointsJ (v : JVal) : Except Unit (List String) :=
  if v.truthy = false then .ok []
  else
    match v with
    | .str s => .ok (splitIntoPoints s 10)
    | _ => .error ()

/-- A list of strings as a JavaScript array value. -/
def strArr (ps : List String) : JVal := .arr (ps.map JVal.str)

/-- The output of `normalizeSummarizeResponse` on a falsy input:
`{ executive_summary: '', points: [], key_clauses: [], fallback: true }`. -/
def falsySummaryOut : JVal :=
  .obj [("executive_summary", .str ""), ("points", .arr []),
        ("key_clauses", .arr []), ("fallback", .bool true)]

/-- The guard of the structured branch:
`raw.executive_summary || Array.isArray(raw.points)`. -/
def structuredCond (raw : JVal) : Bool :=
  (raw.getField "executive_summary").truthy || (raw.getField "points").isArr

/-- The `points` expression of the structured branch:
`Array.isArray(raw.points) ? raw.points : (typeof raw.points === 'string'
? [raw.points] : (raw.summary ? splitIntoPoints(raw.summary) : []))`. -/
def structuredPointsE (raw : JVal) : Except Unit JVal :=
  if (raw.getField "points").isArr then .ok (raw.getField "points")
  else
    match raw.getField "points" with
    | .str s => .ok (.arr [.str s])
    | _ =>
      if (raw.getField "summary").truthy then do
        let ps ← splitIntoPointsJ (raw.getField "summary")
        .ok (strArr ps)
      else .ok (.arr [])

/-- The object built by the structured branch of
`normalizeSummarizeResponse` (the `key_clauses` expression
`raw.key_clauses ?? raw.key_clauses === null ? [] : []` parses as a
conditional whose both arms are `[]`, so it is constantly the empty
array). -/
def structuredOut (raw points : JVal) : JVal :=
  .obj [
    ("doc_id", raw.getField "doc_id"),
    ("executive_summary", coalesce (raw.getField "executive_summary")
        (match raw.getField "summary" with | .str s => .str s | _ => .str "")),
    ("points", points),
    ("key_clauses", .arr []),
    ("purpose", coalesce (raw.getField "purpose")
        (coalesce (raw.getField "document_purpose") .null)),
    ("rag_corpus", coalesce (raw.getField "rag_corpus")
        (coalesce (raw.getField "corpus_name") .null)),
    ("fallback", match raw.getField "fallback" with
        | .bool b => .bool b | _ => .bool false),
    ("debug", coalesce (raw.getField "debug") .undef),
    ("summary", coalesce (raw.getField "summary")
        (coalesce (raw.getField "executive_summary") .undef))]

/-- The object built by the legacy branch (`typeof raw.summary ===
'string'`), which splits the flat summary into points. -/
def legacyOut (raw : JVal) (s : String) : JVal :=
  .obj [
    ("doc_id", raw.getField "doc_id"),
    ("executive_summary", .str s),
    ("points", strArr (splitIntoPoints s 10)),
    ("key_clauses", .arr []),
    ("purpose", coalesce (raw.getField "purpose") .null),
    ("rag_corpus", coalesce (raw.getField "rag_corpus")
        (coalesce (raw.getField "corpus_name") .null)),
    ("fallback", .bool (raw.getField "fallback").truthy),
    ("debug", coalesce (raw.getField "debug") .undef),
    ("summary", .str s)]

/-- The object built when the whole response is a bare string. -/
def stringOut (s : String) : JVal :=
  .obj [
    ("executive_summary", .str s),
    ("points", strArr (splitIntoPoints s 10)),
    ("key_clauses", .arr []),
    ("fallback", .bool true),
    ("summary", .str s)]

/-- The `points` expression of the unknown-shape branch:
`raw.points ?? (raw.summary ? splitIntoPoints(raw.summary) : [])`. -/
def unknownPointsE (raw : JVal) : Except Unit JVal :=
  if (raw.getField "points").nullish then
    if (raw.getField "summary").truthy then do
      let ps ← splitIntoPointsJ (raw.getField "summary")
      .ok (strArr ps)
    else .ok (.arr [])
  else .ok (raw.getField "points")

/-- The object built by the unknown-shape fallback branch. -/
def unknownOut (raw points : JVal) : JVal :=
  .obj [
    ("executive_summary", coalesce (raw.getField "executive_summary")
        (coalesce (raw.getField "summary") (.str ""))),
    ("points", points),
    ("key_clauses", coalesce (raw.getField "key_clauses") (.arr [])),
    ("purpose", coalesce (raw.getField "purpose") .null),
    ("rag_corpus", coalesce (raw.getField "rag_corpus") .null),
    ("fallback", .bool (raw.getField "fallback").truthy),
    ("summary", coalesce (raw.getField "summary") .undef)]

/-- `normalizeSummarizeResponse` from `src/services/api.ts`.  The branch
structure follows the source: falsy input, structured shape
(`executive_summary` truthy or `points` an array), legacy flat string
summary, bare string response, then the unknown-shape fallback. -/
def normalizeSummarizeResponse (raw : JVal) : Except Unit JVal :=
  if raw.truthy = false then .ok falsySummaryOut
  else if structuredCond raw then do
    let p ← structuredPointsE raw
    .ok (structuredOut raw p)
  else
    match raw.getField "summary" with
    | .str s => .ok (legacyOut raw s)
    | _ =>
      match raw with
      | .str s => .ok (stringOut s)
      | _ => do
        let p ← unknownPointsE raw
        .ok (unknownOut raw p)

/-- Does `pat` occur at the start of `s` (over character lists). -/
def startsWithL : List Char → List Char → Bool
  | [], _ => true
  | _ :: _, [] => false
  | a :: as, b :: bs => a = b && startsWithL as bs

/-- Does `pat` occur anywhere in `s` (over character lists). -/
def containsSubL (pat : List Char) : List Char → Bool
  | [] => startsWithL pat []
  | s => startsWithL pat s || match s with
      | [] => false
      | _ :: rest => containsSubL pat rest

/-- JavaScript `s.includes(pat)`. -/
def containsSub (s pat : String) : Bool := containsSubL pat.toList s.toList

/-- JavaScript `s.toLowerCase()` for the ASCII inputs at hand, defined
over the character list so that it evaluates in the kernel. -/
def lowerStr (s : String) : String := String.mk (s.toList.map Char.toLower)

/-- The safe default risks response built by `normalizeRisksResponse`:
zero items, zero score, tier `Low`, zero counts. -/
def emptyRisks : JVal :=
  .obj [("risks", .arr []),
        ("document_level", .obj [
          ("computed_risk_score", .num 0),
          ("risk_tier", .str "Low"),
          ("counts", .obj [("high", .num 0), ("medium", .num 0), ("low", .num 0)])])]

/-- `r.provided_severity ?? r.severity_level ?? 'Low'`, the textual
severity of a candidate risk item. -/
def providedOf (r : JVal) : JVal :=
  coalesce (r.getField "provided_severity")
    (coalesce (r.getField "severity_level") (.str "Low"))

/-- The numeric severity the mapping assigns: `Math.round` of a supplied
number, otherwise the label-based fallback 85/50/15 applied to the
lower-cased textual severity (15 when the label is not a string). -/
def riskNumeric (r : JVal) : ℤ :=
  match r.getField "severity_score" with
  | .num q => jsRound q
  | _ =>
    match providedOf r with
    | .str s =>
      if containsSub (lowerStr s) "high" then 85
      else if containsSub (lowerStr s) "medium" then 50
      else 15
    | _ => 15

/-- The per-item mapping of `normalizeRisksResponse` (the body of
`arr.map((r, i) => ...)`), defined for any `r` that is not
`null`/`undefined`; every property in it is read directly off `r`. -/
def mapRiskItem (i : Nat) (r : JVal) : JVal :=
  let provided := providedOf r
  let numeric : ℤ := riskNumeric r
  .obj [
    ("id", coalesce (r.getField "id") (.str ("risk-" ++ toString i))),
    ("provided_severity", provided),
    ("severity_level", coalesce (r.getField "severity_level") provided),
    ("severity_score", .num (numeric : ℚ)),
    ("snippet", coalesce (r.getField "snippet")
        (coalesce (r.getField "text") (coalesce (r.getField "originalText") (.str "")))),
    ("label", coalesce (r.getField "label") .undef),
    ("short_risk", coalesce (r.getField "short_risk")
        (coalesce (r.getField "title")
          (match r.getField "label" with
           | .str s => .str s
           | _ => coalesce (r.getField "short_risk") (.str "Potential risk")))),
    ("explanation", coalesce (r.getField "explanation")
        (coalesce (r.getField "reason") (coalesce (r.getField "why") (.str "")))),
    ("recommendations",
        if (r.getField "recommendations").isArr then r.getField "recommendations"
        else if (r.getField "recs").truthy then r.getField "recs" else .arr []),
    ("citation", coalesce (r.getField "citation")
        (.obj [("page", coalesce (r.getField "page") .null),
               ("start", coalesce (r.getField "start") .null),
               ("end", coalesce (r.getField "end") .null)]))]

/-- `arr.map((r, i) => ...)` for the risk list: JavaScript throws a
`TypeError` at the first property read when an element is `null` (or
`undefined`); otherwise each element maps through `mapRiskItem`. -/
def mapRisksE : Nat → List JVal → Except Unit (List JVal)
  | _, [] => .ok []
  | i, r :: rs =>
    if r.nullish then .error ()
    else do
      let rest ← mapRisksE (i + 1) rs
      .ok (mapRiskItem i r :: rest)

/-- The severity counts of the document-level aggregate. -/
structure SevCounts where
  high : Nat
  medium : Nat
  low : Nat
  deriving DecidableEq, Repr

/-- The bucketing loop over the normalized items: a score of at least 67
counts as high, at least 34 as medium, anything else as low. -/
def sevCountsOf : List ℚ → SevCounts
  | [] => ⟨0, 0, 0⟩
  | q :: qs =>
    let c := sevCountsOf qs
    if q ≥ 67 then { c with high := c.high + 1 }
    else if q ≥ 34 then { c with medium := c.medium + 1 }
    else { c with low := c.low + 1 }

/-- The numeric severity of a normalized item, `x.severity_score ?? 0`
(the score is always a number for items built by `mapRiskItem`). -/
def scoreOf (item : JVal) : ℚ :=
  match item.getField "severity_score" with
  | .num q => q
  | _ => 0

/-- The computed document-level aggregate of `normalizeRisksResponse`
(and, duplicated verbatim, of the dashboard): the rounded mean of the
severity scores (0 for an empty list), the tier thresholds 33/66, and
the 67/34 bucket counts. -/
def computeDocLevel (items : List JVal) : ℤ × String × SevCounts :=
  let numericArr := items.map scoreOf
  let sum : ℚ := numericArr.foldl (· + ·) 0
  let computed : ℤ :=
    if numericArr.length ≠ 0 then jsRound (sum / (numericArr.length : ℚ)) else 0
  let counts := sevCountsOf numericArr
  let tier : String :=
    if computed ≤ 33 then "Low" else if computed ≤ 66 then "Medium" else "High"
  (computed, tier, counts)

/-- The computed aggregate as the JavaScript object the source builds. -/
def encodeDocLevel (dl : ℤ × String × SevCounts) : JVal :=
  .obj [("computed_risk_score", .num (dl.1 : ℚ)),
        ("risk_tier", .str dl.2.1),
        ("counts", .obj [("high", .num (dl.2.2.high : ℚ)),
                         ("medium", .num (dl.2.2.medium : ℚ)),
                         ("low", .num (dl.2.2.low : ℚ))])]

/-- The item array the array branch starts from:
`Array.isArray(raw) ? raw.slice() : raw.risks.slice()` (the branch guard
guarantees `raw.risks` is an array in the second case). -/
def risksSourceList (raw : JVal) : List JVal :=
  match raw with
  | .arr xs => xs
  | _ => (raw.getField "risks").asList

/-- The `document_level` extraction of the array branch.  When the item
array is non-empty, its last element has object type (`typeof` object:
object, array or `null`) and contains a `document_level` key, that value
is popped off and used; testing `'document_level' in lastEl` throws when
the last element is `null`.  Otherwise a truthy `raw.document_level` is
used (the `arr = raw.risks.slice()` reassignment in that branch repeats
the initial choice, so the array is unchanged).  The second component is
the `document_level` variable, `undefined` when nothing was extracted. -/
def extractDocLevel (raw : JVal) : Except Unit (List JVal × JVal) :=
  let arr0 := risksSourceList raw
  let fallback : List JVal × JVal :=
    (arr0, if (raw.getField "document_level").truthy
           then raw.getField "document_level" else .undef)
  match arr0.getLast? with
  | some lastEl =>
    if lastEl.typeofObject then do
      let b ← jsInE "document_level" lastEl
      if b then .ok (arr0.dropLast, lastEl.getField "document_level")
      else .ok fallback
    else .ok fallback
  | none => .ok fallback

/-- The final response object of the array branch. -/
def riskOut (items : List JVal) (dl : JVal) : JVal :=
  .obj [("risks", .arr items), ("document_level", dl)]

/-- The array branch of `normalizeRisksResponse`: extract any supplied
aggregate, map the items, and compute the aggregate when the extracted
`document_level` is falsy (`if (!document_level)`). -/
def normalizeRisksArrayBranch (raw : JVal) : Except Unit JVal := do
  let p ← extractDocLevel raw
  let items ← mapRisksE 0 p.1
  .ok (riskOut items
    (if p.2.truthy then p.2 else encodeDocLevel (computeDocLevel items)))

/-- `normalizeRisksResponse` from `src/services/api.ts`.  Falsy input
returns the safe empty shape; an array input or an array `risks` field
takes the array branch; a truthy non-array object `risks` field recurses
on `Object.values(raw.risks)` — that recursive call always lands in the
array branch, which is inlined here; anything else is the empty shape. -/
def normalizeRisksResponse (raw : JVal) : Except Unit JVal :=
  if raw.truthy = false then .ok emptyRisks
  else if (raw.getField "risks").isArr || raw.isArr then
    normalizeRisksArrayBranch raw
  else
    match raw.getField "risks" with
    | .obj fs => normalizeRisksArrayBranch (.arr (fs.map Prod.snd))
    | _ => .ok emptyRisks

/-- The normalized item list of a risks response object. -/
def risksOf (o : JVal) : List JVal := (o.getField "risks").asList

instance {ε α : Type} [DecidableEq ε] [DecidableEq α] : DecidableEq (Except ε α) :=
  fun x y =>
    match x, y with
    | .ok a, .ok b =>
      if h : a = b then .isTrue (by rw [h]) else .isFalse (fun he => h (Except.ok.inj he))
    | .error a, .error b =>
      if h : a = b then .isTrue (by rw [h]) else .isFalse (fun he => h (Except.error.inj he))
    | .ok _, .error _ => .isFalse (fun he => Except.noConfusion he)
    | .error _, .ok _ => .isFalse (fun he => Except.noConfusion he)

/-- The keyword table of `findKeywords` in the dashboard, in source
order: risk category tag paired with its matching words/phrases. -/
def keywordTable : List (String × List String) :=
  [("eviction", ["evict", "eviction", "forfeit", "forfeiture"]),
   ("late_payment", ["late", "late payment", "interest", "grace period", "penalty"]),
   ("deposit", ["deposit", "security deposit"]),
   ("termination", ["terminate", "termination", "notice", "early termination"]),
   ("subletting", ["sublet", "subletting", "sub-lett"]),
   ("utilities", ["utility", "electric", "water", "gas", "internet"]),
   ("maintenance", ["maintain", "repair", "responsible for", "care of the property"])]

/-- `findKeywords` from the dashboard: lower-case the text and collect,
in table order, each category one of whose words occurs in it.  The
source breaks at the first matching word per category and deduplicates
at the end; since each category is pushed at most once, that final
`Array.from(new Set(found))` is the identity. -/
def findKeywords (text : String) : List String :=
  let low := lowerStr text
  (keywordTable.filter (fun p => p.2.any (fun w => containsSub low w))).map Prod.fst

/-- `severityForTag` from the dashboard: severity label and score per
category. -/
def severityForTag (tag : String) : String × ℚ :=
  if tag = "eviction" then ("High", 85)
  else if tag = "late_payment" then ("Medium", 55)
  else if tag = "deposit" then ("Medium", 50)
  else if tag = "termination" then ("Medium", 60)
  else if tag = "subletting" then ("Low", 30)
  else if tag = "utilities" then ("Low", 25)
  else if tag = "maintenance" then ("Low", 28)
  else ("Low", 20)

/-- The `\[(\d+):(\d+)\]` matcher of `extractCitationFromText`: scan for
the first position where an opening bracket is followed by one or more
digits, a colon, one or more digits and a closing bracket, and return
the two numbers. -/
def matchCitation : List Char → Option (Nat × Nat)
  | [] => none
  | '[' :: rest =>
    let d1 := rest.takeWhile Char.isDigit
    let r1 := rest.dropWhile Char.isDigit
    (match d1, r1 with
     | _ :: _, ':' :: r2 =>
       let d2 := r2.takeWhile Char.isDigit
       let r3 := r2.dropWhile Char.isDigit
       (match d2, r3 with
        | _ :: _, ']' :: _ =>
          some (d1.foldl (fun n c => n * 10 + (c.toNat - 48)) 0,
                d2.foldl (fun n c => n * 10 + (c.toNat - 48)) 0)
        | _, _ => matchCitation rest)
     | _, _ => matchCitation rest)
  | _ :: rest => matchCitation rest

/-- `extractCitationFromText` from the dashboard as a citation object:
`{page: null, start, end}` on a match, all-null otherwise. -/
def extractCitation (text : String) : JVal :=
  match matchCitation text.toList with
  | some (a, b) => .obj [("page", .null), ("start", .num (a : ℚ)), ("end", .num (b : ℚ))]
  | none => .obj [("page", .null), ("start", .null), ("end", .null)]

/-- `tag.replace('_', ' ')`: JavaScript string-pattern replace rewrites
only the first occurrence (category tags contain at most one). -/
def underscoreToSpace (s : String) : String :=
  String.mk (go s.toList)
where
  go : List Char → List Char
    | [] => []
    | c :: rest => if c = '_' then ' ' :: rest else c :: go rest

/-- The first `n` characters of a string (`s.slice(0, n)` and
`s.substring(0, n)` for a non-negative literal `n`). -/
def takeChars (n : Nat) (s : String) : String := String.mk (s.toList.take n)

/-- The risk item the whole-summary scan of `generateHeuristicRisks`
pushes for a matched category. -/
def mkSummaryItem (summaryText : String) (tag : String) : JVal :=
  let sev := severityForTag tag
  let tagSp := underscoreToSpace tag
  .obj [
    ("id", .str ("heuristic-" ++ tag)),
    ("provided_severity", .str sev.1),
    ("severity_score", .num sev.2),
    ("snippet", .str (takeChars 300 summaryText)),
    ("label", .str tagSp),
    ("short_risk", .str ("Possible " ++ tagSp ++ " clause identified.")),
    ("explanation", .str ("The document language includes terms related to \"" ++ tagSp
        ++ "\" which may expose the resident to " ++ lowerStr sev.1 ++ " risk.")),
    ("recommendations",
      if tag = "eviction" then
        .arr [.str "Clarify eviction conditions and notice periods in writing.",
              .str "Include tenant remedy steps before eviction."]
      else
        .arr [.str "Review clause with legal counsel.",
              .str "Consider negotiating clearer terms."]),
    ("citation", extractCitation summaryText)]

/-- The risk item the point-level scan pushes for point `i` and a matched
category. -/
def mkPointItem (i : Nat) (pt : String) (tag : String) : JVal :=
  let sev := severityForTag tag
  let tagSp := underscoreToSpace tag
  .obj [
    ("id", .str ("heuristic-point-" ++ toString i ++ "-" ++ tag)),
    ("provided_severity", .str sev.1),
    ("severity_score", .num sev.2),
    ("snippet", .str pt),
    ("label", .str (takeChars 60 pt)),
    ("short_risk", .str (if pt.length > 80 then takeChars 80 pt ++ "..." else pt)),
    ("explanation", .str ("Point mentions \"" ++ tagSp ++ "\" which can create "
        ++ lowerStr sev.1 ++ " risk if not clarified.")),
    ("recommendations",
      if tag = "late_payment" then
        .arr [.str "Add explicit grace period and late fee caps.",
              .str "Specify notification process for late payments."]
      else
        .arr [.str "Clarify and limit the clause where possible.",
              .str "Document exceptions and notice periods."]),
    ("citation", extractCitation pt)]

/-- The generic low-severity item emitted when both scans produced
nothing. -/
def genericItem (summaryText : String) (points : List String) : JVal :=
  .obj [
    ("id", .str "heuristic-none"),
    ("provided_severity", .str "Low"),
    ("severity_score", .num 10),
    ("snippet", .str (if summaryText ≠ "" then summaryText else points.headD "")),
    ("label", .str "No obvious high-risk clauses detected"),
    ("short_risk", .str "No explicit risky clauses found — manual review recommended."),
    ("explanation", .str ("Automated scan did not find typical risk keywords; "
        ++ "still recommend human review for context-specific risk.")),
    ("recommendations",
      .arr [.str "Have a lawyer review for context-specific liabilities",
            .str "Check payment and termination sections closely"]),
    ("citation", extractCitation summaryText)]

/-- The `usedTags` filter: keep, in order, the tags not yet in `used`,
threading the updated set (here a list) through. -/
def emitTags (used : List String) : List String → List String × List String
  | [] => ([], used)
  | t :: ts =>
    if t ∈ used then emitTags used ts
    else
      let rest := emitTags (t :: used) ts
      (t :: rest.1, rest.2)

/-- The point-level scan: walk the indexed points while fewer than 8
items have been pushed in total (`count` carries the current total,
checked at each loop head as in the source), emitting one tagged item
per fresh category found in the point. -/
def pointPassGo :
    List String → Nat → List (Nat × String) → List (String × JVal) × List String
  | used, _, [] => ([], used)
  | used, count, (i, pt) :: rest =>
    if count < 8 then
      let e := emitTags used (findKeywords pt)
      let items := e.1.map (fun t => (t, mkPointItem i pt t))
      let r := pointPassGo e.2 (count + items.length) rest
      (items ++ r.1, r.2)
    else ([], used)

/-- Both scans of `generateHeuristicRisks`, with each emitted item paired
with the category that produced it: the whole-summary scan runs when the
summary text is truthy, then the point-level scan continues with the same
`usedTags` set and the 8-item cap. -/
def heurTagged (summaryText : String) (points : List String) : List (String × JVal) :=
  let s :=
    if summaryText ≠ "" then
      let e := emitTags [] (findKeywords summaryText)
      (e.1.map (fun t => (t, mkSummaryItem summaryText t)), e.2)
    else ([], [])
  s.1 ++ (pointPassGo s.2 s.1.length points.enum).1

/-- `generateHeuristicRisks` from the dashboard: the two keyword scans,
the generic fallback item when they produced nothing, and the same
document-level aggregate computation as the service normalizer
(duplicated verbatim in the source). -/
def generateHeuristicRisks (summaryText : String) (points : List String) : JVal :=
  let tagged := heurTagged summaryText points
  let risks := if tagged.isEmpty then [genericItem summaryText points]
               else tagged.map Prod.snd
  riskOut risks (encodeDocLevel (computeDocLevel risks))

/-- Fixed-size chunking: up to `n` windows of 120 characters, each
trimmed (the fallback loop of the dashboard's `formatSummaryPoints`,
which the specification also ascribes to the service-layer ladder). -/
def chunk120Go : Nat → List Char → List String
  | 0, _ => []
  | _, [] => []
  | n + 1, cs => jsTrim (String.mk (cs.take 120)) :: chunk120Go n (cs.drop 120)

/-- Chunk a string into at most 12 windows of 120 characters. -/
def chunk120 (s : String) : List String := chunk120Go 12 s.toList

/-- Modelled from the spec: the three-step point-derivation ladder as the
specification states it for legacy flat summaries — (a) sentence split
discarding fragments under 10 characters, up to 10 fragments when at
least 2 result; (b) otherwise comma/semicolon split under the same
minimum-count rule; (c) otherwise fixed 120-character windows, up to 12
chunks.  This is the claimed behaviour, kept separate so it can be
compared with the `splitIntoPoints` embedding of the actual source,
whose final step returns the single trimmed summary instead. -/
def pointsLadderClaim (s : String) : List String :=
  let frags := ((sentSplit s).map jsTrim).filter (fun t => t.length ≥ 10)
  if frags.length ≥ 2 then frags.take 10
  else
    let parts := ((commaSplit s).map jsTrim).filter (fun t => t.length ≥ 10)
    if parts.length ≥ 2 then parts.take 10
    else chunk120 s

theorem coalesce_of_not_nullish {a : JVal} (b : JVal) (h : a.nullish = false) :
    coalesce a b = a := by
  simp [coalesce, h]

theorem nullish_coalesce_right {b : JVal} (a : JVal) (h : b.nullish = false) :
    (coalesce a b).nullish = false := by
  unfold coalesce
  by_cases ha : a.nullish <;> simp [ha, h]

theorem coalesce_coalesce_undef (a : JVal) :
    coalesce (coalesce a .undef) .undef = coalesce a .undef := by
  cases a <;> rfl

theorem jsRound_intCast (k : ℤ) : jsRound (k : ℚ) = k := by
  rw [jsRound_eq_floor]
  rw [add_comm]
  rw [Int.floor_add_int]
  norm_num

theorem structuredCond_of_falsy {raw : JVal} (h : raw.truthy = false) :
    structuredCond raw = false := by
  cases raw <;> simp_all [structuredCond, JVal.truthy, JVal.getField, JVal.isArr]

/-- Claim C1: the specification asserts that risk-list normalization
never throws for any input, including bare arrays with null elements,
degrading unrecognized shapes to the empty default.  The code violates
this: on the array `[null]` the guard `typeof lastEl === 'object'`
accepts `null` and `'document_level' in lastEl` then throws a
`TypeError`.  This theorem evaluates the embedded normalizer at that
failing input. -/
theorem c1_risks_null_element_throws :
    normalizeRisksResponse (.arr [.null]) = .error () := by decide

/-- Claim C2: the specification asserts that summary normalization never
throws and always returns array `points` and string `executive_summary`.
The code violates this: on `{summary: 5}` the unknown-shape branch calls
`splitIntoPoints(raw.summary)` with a truthy non-string (the callee
declares a string parameter) and throws a `TypeError` at
`summary.split`.  This theorem evaluates the embedding at that input. -/
theorem c2_summarize_numeric_summary_throws :
    normalizeSummarizeResponse (.obj [("summary", .num 5)]) = .error () := by decide

set_option maxRecDepth 8000 in
/-- Claim C7, counterexample: the claimed three-step ladder ends in
120-character chunking, but `splitIntoPoints` (used for legacy flat
summaries) ends in the single-element list holding the trimmed summary;
on a separator-free 130-character string the two disagree (1 point
versus 2 chunks). -/
theorem c7_points_ladder_counterexample :
    splitIntoPoints (String.mk (List.replicate 130 'a')) 10 ≠
      pointsLadderClaim (String.mk (List.replicate 130 'a')) ∧
    (splitIntoPoints (String.mk (List.replicate 130 'a')) 10).length = 1 ∧
    (pointsLadderClaim (String.mk (List.replicate 130 'a'))).length = 2 := by
  decide

/-- Claim C7, amended: for a legacy flat summary, points are derived by
(a) sentence split discarding fragments of at most 10 characters, using
up to 10 fragments when at least 2 result; (b) otherwise comma/semicolon
split of the non-empty trimmed fragments under the same minimum-count
rule; (c) otherwise the single-element list holding the trimmed summary
(not 120-character chunks); consequently the result is non-empty for
every non-empty summary string. -/
theorem c7_split_into_points_ladder (s : String) (h : s ≠ "") :
    splitIntoPoints s 10 ≠ [] ∧
    ((sentenceFragments s).length > 1 →
      splitIntoPoints s 10 = ((sentenceFragments s).take 10).map tidy) ∧
    (¬ (sentenceFragments s).length > 1 → (commaParts s).length > 1 →
      splitIntoPoints s 10 = ((commaParts s).take 10).map tidy) ∧
    (¬ (sentenceFragments s).length > 1 → ¬ (commaParts s).length > 1 →
      splitIntoPoints s 10 = [jsTrim s]) := by
  unfold splitIntoPoints
  rw [if_neg h]
  by_cases h1 : (sentenceFragments s).length > 1
  · rw [if_pos h1]
    refine ⟨?_, fun _ => rfl, fun hn _ => absurd h1 hn, fun hn _ => absurd h1 hn⟩
    have hlen : 0 < (((sentenceFragments s).take 10).map tidy).length := by
      simp only [List.length_map, List.length_take]
      omega
    exact List.ne_nil_of_length_pos hlen
  · rw [if_neg h1]
    by_cases h2 : (commaParts s).length > 1
    · rw [if_pos h2]
      refine ⟨?_, fun hc => absurd hc h1, fun _ _ => rfl, fun _ hn => absurd h2 hn⟩
      have hlen : 0 < (((commaParts s).take 10).map tidy).length := by
        simp only [List.length_map, List.length_take]
        omega
      exact List.ne_nil_of_length_pos hlen
    · rw [if_neg h2]
      exact ⟨by simp, fun hc => absurd hc h1, fun _ hc => absurd hc h2, fun _ _ => rfl⟩

theorem c7_split_into_points_ladder_witness :
    splitIntoPoints "hello" 10 ≠ [] ∧
    ((sentenceFragments "hello").length > 1 →
      splitIntoPoints "hello" 10 = ((sentenceFragments "hello").take 10).map tidy) ∧
    (¬ (sentenceFragments "hello").length > 1 → (commaParts "hello").length > 1 →
      splitIntoPoints "hello" 10 = ((commaParts "hello").take 10).map tidy) ∧
    (¬ (sentenceFragments "hello").length > 1 → ¬ (commaParts "hello").length > 1 →
      splitIntoPoints "hello" 10 = [jsTrim "hello"]) :=
  c7_split_into_points_ladder "hello" (by decide)

/-- Claim C4: when the numeric `severity_score` is missing (not a
number), the normalized score is derived from the textual severity label
`provided_severity ?? severity_level ?? 'Low'`: a label containing
"high" (case-insensitively) yields 85, otherwise one containing "medium"
yields 50, and any other string label yields 15. -/
theorem c4_label_fallback_score (i : Nat) (r : JVal) (s : String)
    (hn : (r.getField "severity_score").isNum = false)
    (hl : providedOf r = .str s) :
    (mapRiskItem i r).getField "severity_score" =
      .num (((if containsSub (lowerStr s) "high" then (85 : ℤ)
              else if containsSub (lowerStr s) "medium" then 50 else 15) : ℤ) : ℚ) := by
  have hsc : (mapRiskItem i r).getField "severity_score" = .num ((riskNumeric r : ℤ) : ℚ) := rfl
  rw [hsc]
  congr 1
  unfold riskNumeric
  rw [hl]
  cases hv : r.getField "severity_score" <;> simp_all [JVal.isNum]

theorem c4_label_fallback_score_witness :
    (mapRiskItem 0 (.obj [("provided_severity", .str "Medium")])).getField "severity_score" =
      .num ((50 : ℤ) : ℚ) := by
  rw [c4_label_fallback_score 0 (.obj [("provided_severity", .str "Medium")]) "Medium"
        (by decide) (by decide)]
  decide

/-- Claim C10: on the structured branch (truthy `executive_summary` or
array `points`), the normalized `key_clauses` is always the empty array,
whatever `key_clauses` the input carried — the expression
`raw.key_clauses ?? raw.key_clauses === null ? [] : []` is a conditional
with two `[]` arms. -/
theorem c10_structured_key_clauses_empty (raw o : JVal)
    (hc : structuredCond raw = true)
    (ho : normalizeSummarizeResponse raw = .ok o) :
    o.getField "key_clauses" = .arr [] := by
  unfold normalizeSummarizeResponse at ho
  by_cases ht : raw.truthy = false
  · rw [structuredCond_of_falsy ht] at hc
    cases hc
  · rw [if_neg ht, if_pos hc] at ho
    cases hp : structuredPointsE raw with
    | error e => rw [hp] at ho; cases ho
    | ok p =>
      rw [hp] at ho
      cases ho
      rfl

theorem c10_structured_key_clauses_empty_witness :
    (JVal.obj [("executive_summary", .str ""), ("points", .arr []),
      ("key_clauses", .arr []), ("purpose", .null), ("rag_corpus", .null),
      ("fallback", .bool false), ("debug", .undef),
      ("summary", .undef)]).getField "key_clauses" = .arr [] ∨
    (structuredOut (.obj [("points", .arr []), ("key_clauses", .arr [.str "x"])])
      (.arr [])).getField "key_clauses" = .arr [] :=
  Or.inr (c10_structured_key_clauses_empty
    (.obj [("points", .arr []), ("key_clauses", .arr [.str "x"])])
    (structuredOut (.obj [("points", .arr []), ("key_clauses", .arr [.str "x"])]) (.arr []))
    (by decide) (by decide))

attribute [local semireducible] Rat.add Rat.mul Rat.inv

theorem exceptBind_ok {ε α β : Type} (a : α) (f : α → Except ε β) :
    (Except.ok a >>= f) = f a := rfl

theorem exceptBind_error {ε α β : Type} (e : ε) (f : α → Except ε β) :
    ((Except.error e : Except ε α) >>= f) = .error e := rfl

theorem risksOf_riskOut (items : List JVal) (dl : JVal) :
    risksOf (riskOut items dl) = items := rfl

theorem docLevel_riskOut (items : List JVal) (dl : JVal) :
    (riskOut items dl).getField "document_level" = dl := rfl

theorem mapRiskItem_score (i : Nat) (r : JVal) :
    (mapRiskItem i r).getField "severity_score" = .num ((riskNumeric r : ℤ) : ℚ) := rfl

theorem mapRisksE_ok_mem :
    ∀ {arrd : List JVal} {i : Nat} {items : List JVal}, mapRisksE i arrd = .ok items →
      ∀ x ∈ items, ∃ j r, r.nullish = false ∧ x = mapRiskItem j r := by
  intro arrd
  induction arrd with
  | nil =>
    intro i items h x hx
    unfold mapRisksE at h
    cases h
    cases hx
  | cons r rs ih =>
    intro i items h x hx
    unfold mapRisksE at h
    by_cases hr : r.nullish
    · rw [if_pos hr] at h; cases h
    · rw [if_neg (by simp [hr])] at h
      cases hrec : mapRisksE (i + 1) rs with
      | error e => rw [hrec, exceptBind_error] at h; cases h
      | ok rest =>
        rw [hrec, exceptBind_ok] at h
        cases h
        rcases List.mem_cons.mp hx with hx | hx
        · exact ⟨i, r, by simpa using hr, hx⟩
        · exact ih hrec x hx

theorem arrayBranch_ok {raw o : JVal} (h : normalizeRisksArrayBranch raw = .ok o) :
    ∃ arrd items dl, mapRisksE 0 arrd = .ok items ∧ o = riskOut items dl := by
  unfold normalizeRisksArrayBranch at h
  cases hp : extractDocLevel raw with
  | error e => rw [hp, exceptBind_error] at h; cases h
  | ok p =>
    rw [hp, exceptBind_ok] at h
    cases hm : mapRisksE 0 p.1 with
    | error e => rw [hm, exceptBind_error] at h; cases h
    | ok items =>
      rw [hm, exceptBind_ok] at h
      cases h
      exact ⟨p.1, items, _, hm, rfl⟩

theorem normalizeRisks_ok_shape {raw o : JVal} (h : normalizeRisksResponse raw = .ok o) :
    o = emptyRisks ∨ ∃ arrd items dl, mapRisksE 0 arrd = .ok items ∧ o = riskOut items dl := by
  unfold normalizeRisksResponse at h
  by_cases ht : raw.truthy = false
  · rw [if_pos ht] at h; cases h; exact Or.inl rfl
  · rw [if_neg ht] at h
    by_cases hb : ((raw.getField "risks").isArr || raw.isArr) = true
    · rw [if_pos hb] at h
      exact Or.inr (arrayBranch_ok h)
    · rw [if_neg hb] at h
      cases hrk : raw.getField "risks" with
      | obj fs => rw [hrk] at h; exact Or.inr (arrayBranch_ok h)
      | undef => rw [hrk] at h; cases h; exact Or.inl rfl
      | null => rw [hrk] at h; cases h; exact Or.inl rfl
      | bool b => rw [hrk] at h; cases h; exact Or.inl rfl
      | num q => rw [hrk] at h; cases h; exact Or.inl rfl
      | str s => rw [hrk] at h; cases h; exact Or.inl rfl
      | arr xs => rw [hrk] at h; cases h; exact Or.inl rfl

/-- Claim C8, counterexample: a payload supplying the numeric severity
150 normalizes to an item whose `severity_score` is 150, outside the
0..100 range the claim asserts for every input payload — supplied scores
are rounded but never clamped. -/
theorem c8_score_range_counterexample :
    Except.map (fun o => (risksOf o).map (fun x => x.getField "severity_score"))
      (normalizeRisksResponse (.obj [("risks", .arr [.obj [("severity_score", .num 150)]])]))
      = .ok [.num 150] ∧ ¬ ((150 : ℚ) ≤ 100) := by
  decide

/-- Claim C8, amended: after risk-list normalization every item carries a
present, integer `severity_score`; when the supplied score is not a
number the label-derived default is one of 15, 50, 85 (hence within
0..100), but a supplied numeric score is only rounded, not clamped, so
it may lie outside 0..100. -/
theorem c8_score_present_integer :
    (∀ raw o, normalizeRisksResponse raw = .ok o →
      ∀ x ∈ risksOf o, ∃ k : ℤ, x.getField "severity_score" = .num (k : ℚ)) ∧
    (∀ (i : Nat) (r : JVal), (r.getField "severity_score").isNum = false →
      (mapRiskItem i r).getField "severity_score" = .num ((15 : ℤ) : ℚ) ∨
      (mapRiskItem i r).getField "severity_score" = .num ((50 : ℤ) : ℚ) ∨
      (mapRiskItem i r).getField "severity_score" = .num ((85 : ℤ) : ℚ)) := by
  constructor
  · intro raw o h x hx
    rcases normalizeRisks_ok_shape h with rfl | ⟨arrd, items, dl, hm, rfl⟩
    · cases hx
    · rw [risksOf_riskOut] at hx
      rcases mapRisksE_ok_mem hm x hx with ⟨j, r, _, rfl⟩
      exact ⟨riskNumeric r, mapRiskItem_score j r⟩
  · intro i r hn
    rw [mapRiskItem_score i r]
    have key : riskNumeric r = 15 ∨ riskNumeric r = 50 ∨ riskNumeric r = 85 := ?_
    · rcases key with hk | hk | hk <;> rw [hk] <;> simp
    unfold riskNumeric
    cases hv : r.getField "severity_score" with
    | num q => rw [hv] at hn; cases hn
    | undef =>
      cases hp : providedOf r <;> simp only
      case str s =>
        by_cases hh : containsSub (lowerStr s) "high" = true
        · simp [hh]
        · by_cases hm : containsSub (lowerStr s) "medium" = true <;>
            simp [hh, hm]
      all_goals simp
    | null =>
      cases hp : providedOf r <;> simp only
      case str s =>
        by_cases hh : containsSub (lowerStr s) "high" = true
        · simp [hh]
        · by_cases hm : containsSub (lowerStr s) "medium" = true <;>
            simp [hh, hm]
      all_goals simp
    | bool b =>
      cases hp : providedOf r <;> simp only
      case str s =>
        by_cases hh : containsSub (lowerStr s) "high" = true
        · simp [hh]
        · by_cases hm : containsSub (lowerStr s) "medium" = true <;>
            simp [hh, hm]
      all_goals simp
    | str s0 =>
      cases hp : providedOf r <;> simp only
      case str s =>
        by_cases hh : containsSub (lowerStr s) "high" = true
        · simp [hh]
        · by_cases hm : containsSub (lowerStr s) "medium" = true <;>
            simp [hh, hm]
      all_goals simp
    | arr xs =>
      cases hp : providedOf r <;> simp only
      case str s =>
        by_cases hh : containsSub (lowerStr s) "high" = true
        · simp [hh]
        · by_cases hm : containsSub (lowerStr s) "medium" = true <;>
            simp [hh, hm]
      all_goals simp
    | obj fs =>
      cases hp : providedOf r <;> simp only
      case str s =>
        by_cases hh : containsSub (lowerStr s) "high" = true
        · simp [hh]
        · by_cases hm : containsSub (lowerStr s) "medium" = true <;>
            simp [hh, hm]
      all_goals simp

theorem c8_score_present_integer_witness :
    (∃ k : ℤ, (mapRiskItem 0 (JVal.obj [])).getField "severity_score" = .num (k : ℚ)) ∧
    ((mapRiskItem 0 (JVal.obj [])).getField "severity_score" = .num ((15 : ℤ) : ℚ) ∨
      (mapRiskItem 0 (JVal.obj [])).getField "severity_score" = .num ((50 : ℤ) : ℚ) ∨
      (mapRiskItem 0 (JVal.obj [])).getField "severity_score" = .num ((85 : ℤ) : ℚ)) :=
  ⟨c8_score_present_integer.1 (.obj [("risks", .arr [.obj []])])
      (riskOut [mapRiskItem 0 (JVal.obj [])]
        (encodeDocLevel (computeDocLevel [mapRiskItem 0 (JVal.obj [])])))
      (by decide) (mapRiskItem 0 (JVal.obj [])) (by decide),
   c8_score_present_integer.2 0 (JVal.obj []) (by decide)⟩


theorem snd_mem_of_enumFrom :
    ∀ {l : List String} {n : Nat} {p : Nat × String}, p ∈ l.enumFrom n → p.2 ∈ l := by
  intro l
  induction l with
  | nil => intro n p hp; cases hp
  | cons a l ih =>
    intro n p hp
    rw [List.enumFrom] at hp
    rcases List.mem_cons.mp hp with rfl | hp
    · exact List.mem_cons_self a l
    · exact List.mem_cons_of_mem a (ih hp)

theorem emitTags_out_nil : ∀ (used : List String), (emitTags used []).1 = [] := by
  intro used; rfl

theorem emitTags_not_mem :
    ∀ (ts used : List String) (x : String), x ∈ (emitTags used ts).1 → x ∉ used := by
  intro ts
  induction ts with
  | nil => intro used x hx; cases hx
  | cons t ts ih =>
    intro used x hx
    unfold emitTags at hx
    by_cases ht : t ∈ used
    · rw [if_pos ht] at hx
      exact ih used x hx
    · rw [if_neg ht] at hx
      rcases List.mem_cons.mp hx with rfl | hx
      · exact ht
      · intro hxu
        exact ih (t :: used) x hx (List.mem_cons_of_mem t hxu)

theorem emitTags_used_mono :
    ∀ (ts used : List String) (x : String), x ∈ used → x ∈ (emitTags used ts).2 := by
  intro ts
  induction ts with
  | nil => intro used x hx; exact hx
  | cons t ts ih =>
    intro used x hx
    unfold emitTags
    by_cases ht : t ∈ used
    · rw [if_pos ht]
      exact ih used x hx
    · rw [if_neg ht]
      exact ih (t :: used) x (List.mem_cons_of_mem t hx)

theorem emitTags_out_mem_used :
    ∀ (ts used : List String) (x : String), x ∈ (emitTags used ts).1 → x ∈ (emitTags used ts).2 := by
  intro ts
  induction ts with
  | nil => intro used x hx; cases hx
  | cons t ts ih =>
    intro used x hx
    unfold emitTags at hx ⊢
    by_cases ht : t ∈ used
    · rw [if_pos ht] at hx ⊢
      exact ih used x hx
    · rw [if_neg ht] at hx ⊢
      rcases List.mem_cons.mp hx with rfl | hx
      · exact emitTags_used_mono ts (x :: used) x (List.mem_cons_self x used)
      · exact ih (t :: used) x hx

theorem emitTags_nodup : ∀ (ts used : List String), (emitTags used ts).1.Nodup := by
  intro ts
  induction ts with
  | nil => intro used; exact List.nodup_nil
  | cons t ts ih =>
    intro used
    unfold emitTags
    by_cases ht : t ∈ used
    · rw [if_pos ht]
      exact ih used
    · rw [if_neg ht]
      refine List.Nodup.cons ?_ (ih (t :: used))
      intro hmem
      exact emitTags_not_mem ts (t :: used) t hmem (List.mem_cons_self t used)

theorem map_fst_tag (l : List String) (f : String → JVal) :
    (l.map (fun t => (t, f t))).map Prod.fst = l := by
  induction l with
  | nil => rfl
  | cons a l ih => simp only [List.map_cons, ih]

theorem pointPassGo_tags :
    ∀ (l : List (Nat × String)) (used : List String) (count : Nat),
      (((pointPassGo used count l).1.map Prod.fst).Nodup ∧
        ∀ x ∈ (pointPassGo used count l).1.map Prod.fst, x ∉ used) := by
  intro l
  induction l with
  | nil =>
    intro used count
    exact ⟨List.nodup_nil, by intro x hx; cases hx⟩
  | cons p rest ih =>
    intro used count
    obtain ⟨i, pt⟩ := p
    unfold pointPassGo
    by_cases hc : count < 8
    · rw [if_pos hc]
      have hmapfst :
          ((emitTags used (findKeywords pt)).1.map
              (fun t => (t, mkPointItem i pt t))).map Prod.fst
            = (emitTags used (findKeywords pt)).1 :=
        map_fst_tag _ _
      set e := emitTags used (findKeywords pt) with he
      obtain ⟨ihn, ihm⟩ := ih e.2 (count + (e.1.map (fun t => (t, mkPointItem i pt t))).length)
      constructor
      · rw [List.map_append, hmapfst]
        refine List.Nodup.append (emitTags_nodup _ _) ihn ?_
        intro a ha har
        exact ihm a har (emitTags_out_mem_used _ _ _ ha)
      · intro x hx
        rw [List.map_append, hmapfst] at hx
        rcases List.mem_append.mp hx with hx | hx
        · exact emitTags_not_mem _ _ _ hx
        · intro hxu
          exact ihm x hx (emitTags_used_mono _ _ _ hxu)
    · rw [if_neg hc]
      exact ⟨List.nodup_nil, by intro x hx; cases hx⟩

/-- Claim C6: category exclusivity of the heuristic synthesizer — in one
run, the `usedTags` set guarantees no keyword category produces two
emitted items: a category matched in the whole-summary scan is never
re-emitted by the point scan, and a category matched at one point is
never re-emitted at a later point.  The tag paired with every emitted
item in `heurTagged` (whose item projections form the synthesizer's risk
list) occurs exactly once. -/
theorem c6_category_exclusive (summaryText : String) (points : List String) :
    ((heurTagged summaryText points).map Prod.fst).Nodup := by
  unfold heurTagged
  by_cases hs : summaryText ≠ ""
  · rw [if_pos hs]
    set e := emitTags [] (findKeywords summaryText) with he
    have hmapfst :
        (e.1.map (fun t => (t, mkSummaryItem summaryText t))).map Prod.fst = e.1 :=
      map_fst_tag _ _
    rw [List.map_append, hmapfst]
    obtain ⟨hn, hm⟩ :=
      pointPassGo_tags points.enum e.2
        (e.1.map (fun t => (t, mkSummaryItem summaryText t))).length
    refine List.Nodup.append (emitTags_nodup _ _) hn ?_
    intro a ha har
    exact hm a har (emitTags_out_mem_used _ _ _ ha)
  · rw [if_neg hs]
    obtain ⟨hn, _⟩ := pointPassGo_tags points.enum [] 0
    simpa using hn

theorem pointPassGo_nil_of_no_keywords :
    ∀ (l : List (Nat × String)) (used : List String) (count : Nat),
      (∀ p ∈ l, findKeywords p.2 = []) → (pointPassGo used count l).1 = [] := by
  intro l
  induction l with
  | nil => intro used count _; rfl
  | cons p rest ih =>
    intro used count h
    obtain ⟨i, pt⟩ := p
    unfold pointPassGo
    by_cases hc : count < 8
    · rw [if_pos hc]
      have hk : findKeywords pt = [] := h (i, pt) (List.mem_cons_self _ _)
      rw [hk]
      simp only [emitTags, List.map_nil, List.nil_append, List.length_nil, Nat.add_zero]
      exact ih used count (fun q hq => h q (List.mem_cons_of_mem _ hq))
    · rw [if_neg hc]

theorem heurTagged_nil (summaryText : String) (points : List String)
    (h1 : findKeywords summaryText = [])
    (h2 : ∀ pt ∈ points, findKeywords pt = []) :
    heurTagged summaryText points = [] := by
  have hp : ∀ p ∈ points.enum, findKeywords p.2 = [] := by
    intro p hp
    exact h2 p.2 (snd_mem_of_enumFrom hp)
  unfold heurTagged
  by_cases hs : summaryText ≠ ""
  · rw [if_pos hs, h1]
    simp only [emitTags, List.map_nil, List.nil_append, List.length_nil]
    exact pointPassGo_nil_of_no_keywords points.enum [] 0 hp
  · rw [if_neg hs]
    simp only [List.nil_append, List.length_nil]
    exact pointPassGo_nil_of_no_keywords points.enum [] 0 hp

/-- Claim C5: the heuristic risk synthesizer is total and never returns
an empty risk list; and when neither the whole-summary scan nor the
point-level scan matches any keyword category, it returns exactly one
generic item with severity score 10, severity label Low and label "No
obvious high-risk clauses detected". -/
theorem c5_synthesizer_nonempty_generic (summaryText : String) (points : List String) :
    risksOf (generateHeuristicRisks summaryText points) ≠ [] ∧
    (findKeywords summaryText = [] → (∀ pt ∈ points, findKeywords pt = []) →
      risksOf (generateHeuristicRisks summaryText points) =
        [genericItem summaryText points] ∧
      (genericItem summaryText points).getField "severity_score" = .num 10 ∧
      (genericItem summaryText points).getField "provided_severity" = .str "Low" ∧
      (genericItem summaryText points).getField "label" =
        .str "No obvious high-risk clauses detected") := by
  constructor
  · by_cases htag : heurTagged summaryText points = []
    · simp [generateHeuristicRisks, htag, risksOf_riskOut]
    · simp [generateHeuristicRisks, List.isEmpty_iff, htag, risksOf_riskOut,
        List.map_eq_nil_iff]
  · intro h1 h2
    have ht := heurTagged_nil summaryText points h1 h2
    exact ⟨by simp [generateHeuristicRisks, ht, risksOf_riskOut], rfl, rfl, rfl⟩

theorem c5_synthesizer_nonempty_generic_witness :
    risksOf (generateHeuristicRisks "zzz" ["qqq"]) ≠ [] ∧
    (risksOf (generateHeuristicRisks "zzz" ["qqq"]) = [genericItem "zzz" ["qqq"]] ∧
      (genericItem "zzz" ["qqq"]).getField "severity_score" = .num 10 ∧
      (genericItem "zzz" ["qqq"]).getField "provided_severity" = .str "Low" ∧
      (genericItem "zzz" ["qqq"]).getField "label" =
        .str "No obvious high-risk clauses detected") :=
  ⟨(c5_synthesizer_nonempty_generic "zzz" ["qqq"]).1,
   (c5_synthesizer_nonempty_generic "zzz" ["qqq"]).2 (by decide)
     (by
       intro pt hpt
       have hq : pt = "qqq" := by simpa using hpt
       subst hq
       decide)⟩

theorem sevCountsOf_sum (qs : List ℚ) :
    (sevCountsOf qs).high + (sevCountsOf qs).medium + (sevCountsOf qs).low = qs.length := by
  induction qs with
  | nil => rfl
  | cons q qs ih =>
    unfold sevCountsOf
    by_cases h1 : q ≥ 67
    · simp only [if_pos h1, List.length_cons]
      omega
    · rw [if_neg h1]
      by_cases h2 : q ≥ 34
      · simp only [if_pos h2, List.length_cons]
        omega
      · simp only [if_neg h2, List.length_cons]
        omega

theorem falsy_not_array_shape {raw : JVal} (h : raw.truthy = false) :
    ((raw.getField "risks").isArr || raw.isArr) = false := by
  cases raw <;> simp_all [JVal.truthy, JVal.getField, JVal.isArr]

/-- Claim C3: whenever the payload supplies no document-level aggregate
(the extraction step yields a falsy `document_level`), the normalizer
computes it: the aggregate equals `encodeDocLevel (computeDocLevel items)`,
whose bucket counts (scores at least 67 high, at least 34 medium, the
rest low) sum exactly to the item count, whose score is the rounded mean
of the items' severity scores (0 when empty), and whose tier is Low for
scores up to 33, Medium up to 66, else High. -/
theorem c3_computed_document_level (raw o : JVal) (pr : List JVal × JVal)
    (hb : ((raw.getField "risks").isArr || raw.isArr) = true)
    (he : extractDocLevel raw = .ok pr)
    (hf : pr.2.truthy = false)
    (ho : normalizeRisksResponse raw = .ok o) :
    o.getField "document_level" = encodeDocLevel (computeDocLevel (risksOf o)) ∧
    (sevCountsOf ((risksOf o).map scoreOf)).high
      + (sevCountsOf ((risksOf o).map scoreOf)).medium
      + (sevCountsOf ((risksOf o).map scoreOf)).low = (risksOf o).length ∧
    (computeDocLevel (risksOf o)).1 =
      (if (risksOf o).length = 0 then 0
       else jsRound ((((risksOf o).map scoreOf).foldl (· + ·) 0)
          / (((risksOf o).map scoreOf).length : ℚ))) ∧
    (computeDocLevel (risksOf o)).2.1 =
      (if (computeDocLevel (risksOf o)).1 ≤ 33 then "Low"
       else if (computeDocLevel (risksOf o)).1 ≤ 66 then "Medium" else "High") := by
  have hmain : o.getField "document_level" = encodeDocLevel (computeDocLevel (risksOf o)) := by
    unfold normalizeRisksResponse at ho
    by_cases ht : raw.truthy = false
    · rw [falsy_not_array_shape ht] at hb
      cases hb
    · rw [if_neg ht, if_pos hb] at ho
      unfold normalizeRisksArrayBranch at ho
      rw [he, exceptBind_ok] at ho
      cases hm : mapRisksE 0 pr.1 with
      | error e => rw [hm, exceptBind_error] at ho; cases ho
      | ok items =>
        rw [hm, exceptBind_ok] at ho
        rw [if_neg (by simp [hf])] at ho
        cases ho
        rw [risksOf_riskOut, docLevel_riskOut]
  refine ⟨hmain, ?_, ?_, ?_⟩
  · rw [sevCountsOf_sum, List.length_map]
  · by_cases hz : (risksOf o).length = 0
    · simp [computeDocLevel, hz, List.length_map]
    · simp [computeDocLevel, hz, List.length_map]
  · rfl

theorem c3_computed_document_level_witness :
    (riskOut [mapRiskItem 0 (.obj [("severity_score", .num 90)]),
              mapRiskItem 1 (.obj [("severity_score", .num 30)])]
        (encodeDocLevel (computeDocLevel
          [mapRiskItem 0 (.obj [("severity_score", .num 90)]),
           mapRiskItem 1 (.obj [("severity_score", .num 30)])]))).getField "document_level"
      = encodeDocLevel (computeDocLevel (risksOf
          (riskOut [mapRiskItem 0 (.obj [("severity_score", .num 90)]),
                    mapRiskItem 1 (.obj [("severity_score", .num 30)])]
            (encodeDocLevel (computeDocLevel
              [mapRiskItem 0 (.obj [("severity_score", .num 90)]),
               mapRiskItem 1 (.obj [("severity_score", .num 30)])]))))) ∧
    (sevCountsOf ((risksOf
          (riskOut [mapRiskItem 0 (.obj [("severity_score", .num 90)]),
                    mapRiskItem 1 (.obj [("severity_score", .num 30)])]
            (encodeDocLevel (computeDocLevel
              [mapRiskItem 0 (.obj [("severity_score", .num 90)]),
               mapRiskItem 1 (.obj [("severity_score", .num 30)])])))).map scoreOf)).high
      + (sevCountsOf ((risksOf
          (riskOut [mapRiskItem 0 (.obj [("severity_score", .num 90)]),
                    mapRiskItem 1 (.obj [("severity_score", .num 30)])]
            (encodeDocLevel (computeDocLevel
              [mapRiskItem 0 (.obj [("severity_score", .num 90)]),
               mapRiskItem 1 (.obj [("severity_score", .num 30)])])))).map scoreOf)).medium
      + (sevCountsOf ((risksOf
          (riskOut [mapRiskItem 0 (.obj [("severity_score", .num 90)]),
                    mapRiskItem 1 (.obj [("severity_score", .num 30)])]
            (encodeDocLevel (computeDocLevel
              [mapRiskItem 0 (.obj [("severity_score", .num 90)]),
               mapRiskItem 1 (.obj [("severity_score", .num 30)])])))).map scoreOf)).low
      = (risksOf
          (riskOut [mapRiskItem 0 (.obj [("severity_score", .num 90)]),
                    mapRiskItem 1 (.obj [("severity_score", .num 30)])]
            (encodeDocLevel (computeDocLevel
              [mapRiskItem 0 (.obj [("severity_score", .num 90)]),
               mapRiskItem 1 (.obj [("severity_score", .num 30)])])))).length :=
  ⟨(c3_computed_document_level
      (.obj [("risks", .arr [.obj [("severity_score", .num 90)],
                             .obj [("severity_score", .num 30)]])])
      (riskOut [mapRiskItem 0 (.obj [("severity_score", .num 90)]),
                mapRiskItem 1 (.obj [("severity_score", .num 30)])]
        (encodeDocLevel (computeDocLevel
          [mapRiskItem 0 (.obj [("severity_score", .num 90)]),
           mapRiskItem 1 (.obj [("severity_score", .num 30)])])))
      ([.obj [("severity_score", .num 90)], .obj [("severity_score", .num 30)]], .undef)
      (by decide) (by decide) (by decide) (by decide)).1,
   (c3_computed_document_level
      (.obj [("risks", .arr [.obj [("severity_score", .num 90)],
                             .obj [("severity_score", .num 30)]])])
      (riskOut [mapRiskItem 0 (.obj [("severity_score", .num 90)]),
                mapRiskItem 1 (.obj [("severity_score", .num 30)])]
        (encodeDocLevel (computeDocLevel
          [mapRiskItem 0 (.obj [("severity_score", .num 90)]),
           mapRiskItem 1 (.obj [("severity_score", .num 30)])])))
      ([.obj [("severity_score", .num 90)], .obj [("severity_score", .num 30)]], .undef)
      (by decide) (by decide) (by decide) (by decide)).2.1⟩

theorem mapRiskItem_field_id (i : Nat) (r : JVal) :
    (mapRiskItem i r).getField "id" =
      coalesce (r.getField "id") (.str ("risk-" ++ toString i)) := rfl

theorem mapRiskItem_field_provided (i : Nat) (r : JVal) :
    (mapRiskItem i r).getField "provided_severity" = providedOf r := rfl

theorem mapRiskItem_field_level (i : Nat) (r : JVal) :
    (mapRiskItem i r).getField "severity_level" =
      coalesce (r.getField "severity_level") (providedOf r) := rfl

theorem mapRiskItem_field_snippet (i : Nat) (r : JVal) :
    (mapRiskItem i r).getField "snippet" =
      coalesce (r.getField "snippet")
        (coalesce (r.getField "text")
          (coalesce (r.getField "originalText") (.str ""))) := rfl

theorem mapRiskItem_field_label (i : Nat) (r : JVal) :
    (mapRiskItem i r).getField "label" = coalesce (r.getField "label") .undef := rfl

theorem mapRiskItem_field_short (i : Nat) (r : JVal) :
    (mapRiskItem i r).getField "short_risk" =
      coalesce (r.getField "short_risk")
        (coalesce (r.getField "title")
          (match r.getField "label" with
           | .str s => .str s
           | _ => coalesce (r.getField "short_risk") (.str "Potential risk"))) := rfl

theorem mapRiskItem_field_explanation (i : Nat) (r : JVal) :
    (mapRiskItem i r).getField "explanation" =
      coalesce (r.getField "explanation")
        (coalesce (r.getField "reason") (coalesce (r.getField "why") (.str ""))) := rfl

theorem mapRiskItem_field_recs (i : Nat) (r : JVal) :
    (mapRiskItem i r).getField "recommendations" =
      (if (r.getField "recommendations").isArr then r.getField "recommendations"
       else if (r.getField "recs").truthy then r.getField "recs" else .arr []) := rfl

theorem mapRiskItem_field_citation (i : Nat) (r : JVal) :
    (mapRiskItem i r).getField "citation" =
      coalesce (r.getField "citation")
        (.obj [("page", coalesce (r.getField "page") .null),
               ("start", coalesce (r.getField "start") .null),
               ("end", coalesce (r.getField "end") .null)]) := rfl

theorem mapRiskItem_field_absent (i : Nat) (r : JVal) :
    (mapRiskItem i r).getField "text" = .undef ∧
    (mapRiskItem i r).getField "originalText" = .undef ∧
    (mapRiskItem i r).getField "title" = .undef ∧
    (mapRiskItem i r).getField "reason" = .undef ∧
    (mapRiskItem i r).getField "why" = .undef ∧
    (mapRiskItem i r).getField "recs" = .undef ∧
    (mapRiskItem i r).getField "page" = .undef ∧
    (mapRiskItem i r).getField "start" = .undef ∧
    (mapRiskItem i r).getField "end" = .undef :=
  ⟨rfl, rfl, rfl, rfl, rfl, rfl, rfl, rfl, rfl⟩

theorem providedOf_not_nullish (r : JVal) : (providedOf r).nullish = false :=
  nullish_coalesce_right _ (nullish_coalesce_right _ rfl)

theorem shortRisk_not_nullish (r : JVal) :
    (coalesce (r.getField "short_risk")
      (coalesce (r.getField "title")
        (match r.getField "label" with
         | .str s => .str s
         | _ => coalesce (r.getField "short_risk") (.str "Potential risk")))).nullish
      = false := by
  refine nullish_coalesce_right _ (nullish_coalesce_right _ ?_)
  cases r.getField "label" <;>
    first
      | rfl
      | exact nullish_coalesce_right _ rfl

theorem mapRiskItem_not_nullish (i : Nat) (r : JVal) : (mapRiskItem i r).nullish = false := rfl

/-- Idempotence of the per-item mapping, provided the first pass produced
an array `recommendations` (the only per-item field a second pass can
change: a truthy non-array `recs` value passes through once and becomes
`[]` the second time). -/
theorem mapRiskItem_idem (i j : Nat) (r : JVal)
    (hrec : ((mapRiskItem j r).getField "recommendations").isArr = true) :
    mapRiskItem i (mapRiskItem j r) = mapRiskItem j r := by
  have e_provided : providedOf (mapRiskItem j r) = providedOf r := by
    have : providedOf (mapRiskItem j r) =
        coalesce ((mapRiskItem j r).getField "provided_severity")
          (coalesce ((mapRiskItem j r).getField "severity_level") (.str "Low")) := rfl
    rw [this, mapRiskItem_field_provided, mapRiskItem_field_level]
    exact coalesce_of_not_nullish _ (providedOf_not_nullish r)
  have e_id : coalesce ((mapRiskItem j r).getField "id")
      (.str ("risk-" ++ toString i)) = coalesce (r.getField "id")
      (.str ("risk-" ++ toString j)) := by
    rw [mapRiskItem_field_id]
    exact coalesce_of_not_nullish _ (nullish_coalesce_right _ rfl)
  have e_level : coalesce ((mapRiskItem j r).getField "severity_level")
      (providedOf (mapRiskItem j r)) =
      coalesce (r.getField "severity_level") (providedOf r) := by
    rw [mapRiskItem_field_level, e_provided]
    exact coalesce_of_not_nullish _
      (nullish_coalesce_right _ (providedOf_not_nullish r))
  have e_score : riskNumeric (mapRiskItem j r) = riskNumeric r := by
    have h1 : riskNumeric (mapRiskItem j r) =
        jsRound ((riskNumeric r : ℤ) : ℚ) := by
      conv_lhs => unfold riskNumeric
      rw [mapRiskItem_score]
    rw [h1, jsRound_intCast]
  have e_snippet : coalesce ((mapRiskItem j r).getField "snippet")
      (coalesce ((mapRiskItem j r).getField "text")
        (coalesce ((mapRiskItem j r).getField "originalText") (.str ""))) =
      coalesce (r.getField "snippet")
        (coalesce (r.getField "text")
          (coalesce (r.getField "originalText") (.str ""))) := by
    rw [mapRiskItem_field_snippet]
    exact coalesce_of_not_nullish _
      (nullish_coalesce_right _ (nullish_coalesce_right _ (nullish_coalesce_right _ rfl)))
  have e_label : coalesce ((mapRiskItem j r).getField "label") .undef =
      coalesce (r.getField "label") .undef := by
    rw [mapRiskItem_field_label]
    exact coalesce_coalesce_undef _
  have e_short : coalesce ((mapRiskItem j r).getField "short_risk")
      (coalesce ((mapRiskItem j r).getField "title")
        (match (mapRiskItem j r).getField "label" with
         | .str s => JVal.str s
         | _ => coalesce ((mapRiskItem j r).getField "short_risk")
             (.str "Potential risk"))) =
      coalesce (r.getField "short_risk")
        (coalesce (r.getField "title")
          (match r.getField "label" with
           | .str s => JVal.str s
           | _ => coalesce (r.getField "short_risk") (.str "Potential risk"))) := by
    rw [mapRiskItem_field_short]
    exact coalesce_of_not_nullish _ (shortRisk_not_nullish r)
  have e_expl : coalesce ((mapRiskItem j r).getField "explanation")
      (coalesce ((mapRiskItem j r).getField "reason")
        (coalesce ((mapRiskItem j r).getField "why") (.str ""))) =
      coalesce (r.getField "explanation")
        (coalesce (r.getField "reason") (coalesce (r.getField "why") (.str ""))) := by
    rw [mapRiskItem_field_explanation]
    exact coalesce_of_not_nullish _
      (nullish_coalesce_right _ (nullish_coalesce_right _ (nullish_coalesce_right _ rfl)))
  have e_recs : (if ((mapRiskItem j r).getField "recommendations").isArr
      then (mapRiskItem j r).getField "recommendations"
      else if ((mapRiskItem j r).getField "recs").truthy
        then (mapRiskItem j r).getField "recs" else .arr []) =
      (if (r.getField "recommendations").isArr then r.getField "recommendations"
       else if (r.getField "recs").truthy then r.getField "recs" else .arr []) := by
    rw [if_pos hrec, mapRiskItem_field_recs]
  have e_cit : coalesce ((mapRiskItem j r).getField "citation")
      (.obj [("page", coalesce ((mapRiskItem j r).getField "page") .null),
             ("start", coalesce ((mapRiskItem j r).getField "start") .null),
             ("end", coalesce ((mapRiskItem j r).getField "end") .null)]) =
      coalesce (r.getField "citation")
        (.obj [("page", coalesce (r.getField "page") .null),
               ("start", coalesce (r.getField "start") .null),
               ("end", coalesce (r.getField "end") .null)]) := by
    rw [mapRiskItem_field_citation]
    exact coalesce_of_not_nullish _ (nullish_coalesce_right _ rfl)
  show JVal.obj [
    ("id", coalesce ((mapRiskItem j r).getField "id")
        (.str ("risk-" ++ toString i))),
    ("provided_severity", providedOf (mapRiskItem j r)),
    ("severity_level", coalesce ((mapRiskItem j r).getField "severity_level")
        (providedOf (mapRiskItem j r))),
    ("severity_score", .num ((riskNumeric (mapRiskItem j r) : ℤ) : ℚ)),
    ("snippet", coalesce ((mapRiskItem j r).getField "snippet")
        (coalesce ((mapRiskItem j r).getField "text")
          (coalesce ((mapRiskItem j r).getField "originalText") (.str "")))),
    ("label", coalesce ((mapRiskItem j r).getField "label") .undef),
    ("short_risk", coalesce ((mapRiskItem j r).getField "short_risk")
        (coalesce ((mapRiskItem j r).getField "title")
          (match (mapRiskItem j r).getField "label" with
           | .str s => JVal.str s
           | _ => coalesce ((mapRiskItem j r).getField "short_risk")
               (.str "Potential risk")))),
    ("explanation", coalesce ((mapRiskItem j r).getField "explanation")
        (coalesce ((mapRiskItem j r).getField "reason")
          (coalesce ((mapRiskItem j r).getField "why") (.str "")))),
    ("recommendations",
        if ((mapRiskItem j r).getField "recommendations").isArr
        then (mapRiskItem j r).getField "recommendations"
        else if ((mapRiskItem j r).getField "recs").truthy
          then (mapRiskItem j r).getField "recs" else .arr []),
    ("citation", coalesce ((mapRiskItem j r).getField "citation")
        (.obj [("page", coalesce ((mapRiskItem j r).getField "page") .null),
               ("start", coalesce ((mapRiskItem j r).getField "start") .null),
               ("end", coalesce ((mapRiskItem j r).getField "end") .null)]))]
    = mapRiskItem j r
  rw [e_id, e_level, e_provided, e_score, e_snippet, e_label, e_short, e_expl,
    e_recs, e_cit]
  rfl

theorem mapRisksE_idem :
    ∀ {arrd : List JVal} {i : Nat} {items : List JVal},
      mapRisksE i arrd = .ok items →
      (∀ x ∈ items, (x.getField "recommendations").isArr = true) →
      ∀ j, mapRisksE j items = .ok items := by
  intro arrd
  induction arrd with
  | nil =>
    intro i items h _ j
    unfold mapRisksE at h
    cases h
    rfl
  | cons r rs ih =>
    intro i items h hrec j
    unfold mapRisksE at h
    by_cases hr : r.nullish
    · rw [if_pos hr] at h; cases h
    · rw [if_neg (by simp [hr])] at h
      cases hrest : mapRisksE (i + 1) rs with
      | error e => rw [hrest, exceptBind_error] at h; cases h
      | ok rest =>
        rw [hrest, exceptBind_ok] at h
        cases h
        show mapRisksE j (mapRiskItem i r :: rest) = _
        unfold mapRisksE
        rw [if_neg (by simp [mapRiskItem_not_nullish])]
        rw [ih hrest (fun x hx => hrec x (List.mem_cons_of_mem _ hx)) (j + 1),
          exceptBind_ok]
        rw [mapRiskItem_idem j i r (hrec _ (List.mem_cons_self _ _))]

theorem risksSourceList_riskOut (items : List JVal) (dl : JVal) :
    risksSourceList (riskOut items dl) = items := rfl

theorem mem_of_getLast?_eq_some {α : Type} {l : List α} {a : α}
    (h : l.getLast? = some a) : a ∈ l := by
  have ha : a ∈ l.getLast? := by rw [h]; rfl
  rcases List.mem_getLast?_eq_getLast ha with ⟨hne, rfl⟩
  exact List.getLast_mem hne

theorem extractDocLevel_riskOut (items : List JVal) (dl : JVal)
    (hobj : ∀ x ∈ items, ∃ k r, x = mapRiskItem k r)
    (hdl : dl.truthy = true) :
    extractDocLevel (riskOut items dl) = .ok (items, dl) := by
  unfold extractDocLevel
  rw [risksSourceList_riskOut]
  dsimp only
  have hfb : (if ((riskOut items dl).getField "document_level").truthy = true
      then (riskOut items dl).getField "document_level" else JVal.undef) = dl := by
    rw [docLevel_riskOut, if_pos hdl]
  cases hl : items.getLast? with
  | none =>
    dsimp only
    rw [hfb]
  | some lastEl =>
    dsimp only
    rcases hobj lastEl (mem_of_getLast?_eq_some hl) with ⟨k, r, rfl⟩
    have h1 : (mapRiskItem k r).typeofObject = true := rfl
    have h2 : jsInE "document_level" (mapRiskItem k r) = .ok false := rfl
    rw [h1, if_pos rfl, h2, exceptBind_ok, if_neg (by simp), hfb]

theorem arrayBranch_ok_strong {raw o : JVal} (h : normalizeRisksArrayBranch raw = .ok o) :
    ∃ arrd items dl, mapRisksE 0 arrd = .ok items ∧ dl.truthy = true ∧
      o = riskOut items dl := by
  unfold normalizeRisksArrayBranch at h
  cases hp : extractDocLevel raw with
  | error e => rw [hp, exceptBind_error] at h; cases h
  | ok p =>
    rw [hp, exceptBind_ok] at h
    cases hm : mapRisksE 0 p.1 with
    | error e => rw [hm, exceptBind_error] at h; cases h
    | ok items =>
      rw [hm, exceptBind_ok] at h
      cases h
      refine ⟨p.1, items, _, hm, ?_, rfl⟩
      by_cases ht : p.2.truthy = true
      · rw [if_pos ht]; exact ht
      · rw [if_neg ht]; rfl

theorem risksIdem {raw o : JVal} (h : normalizeRisksResponse raw = .ok o)
    (hrec : ∀ x ∈ risksOf o, (x.getField "recommendations").isArr = true) :
    normalizeRisksResponse o = .ok o := by
  have main : ∀ {o' : JVal}, (∃ arrd items dl, mapRisksE 0 arrd = .ok items ∧
      dl.truthy = true ∧ o' = riskOut items dl) →
      (∀ x ∈ risksOf o', (x.getField "recommendations").isArr = true) →
      normalizeRisksResponse o' = .ok o' := by
    rintro o' ⟨arrd, items, dl, hm, hdl, rfl⟩ hrec'
    rw [risksOf_riskOut] at hrec'
    unfold normalizeRisksResponse
    rw [if_neg (by simp [riskOut, JVal.truthy])]
    rw [if_pos (by simp [riskOut, JVal.getField, JVal.lookupField, JVal.isArr])]
    unfold normalizeRisksArrayBranch
    have hobj : ∀ x ∈ items, ∃ k r, x = mapRiskItem k r := by
      intro x hx
      rcases mapRisksE_ok_mem hm x hx with ⟨k, r, _, rfl⟩
      exact ⟨k, r, rfl⟩
    rw [extractDocLevel_riskOut items dl hobj hdl, exceptBind_ok]
    rw [mapRisksE_idem hm hrec' 0, exceptBind_ok]
    rw [if_pos hdl]
  unfold normalizeRisksResponse at h
  by_cases ht : raw.truthy = false
  · rw [if_pos ht] at h
    cases h
    decide
  · rw [if_neg ht] at h
    by_cases hb : ((raw.getField "risks").isArr || raw.isArr) = true
    · rw [if_pos hb] at h
      exact main (arrayBranch_ok_strong h) hrec
    · rw [if_neg hb] at h
      cases hrk : raw.getField "risks" with
      | obj fs =>
        rw [hrk] at h
        exact main (arrayBranch_ok_strong h) hrec
      | undef => rw [hrk] at h; cases h; decide
      | null => rw [hrk] at h; cases h; decide
      | bool b => rw [hrk] at h; cases h; decide
      | num q => rw [hrk] at h; cases h; decide
      | str s => rw [hrk] at h; cases h; decide
      | arr xs => rw [hrk] at h; cases h; decide

theorem structuredOut_field_docid (raw p : JVal) :
    (structuredOut raw p).getField "doc_id" = raw.getField "doc_id" := rfl

theorem structuredOut_field_exec (raw p : JVal) :
    (structuredOut raw p).getField "executive_summary" =
      coalesce (raw.getField "executive_summary")
        (match raw.getField "summary" with | .str s => JVal.str s | _ => .str "") := rfl

theorem structuredOut_field_points (raw p : JVal) :
    (structuredOut raw p).getField "points" = p := rfl

theorem structuredOut_field_purpose (raw p : JVal) :
    (structuredOut raw p).getField "purpose" =
      coalesce (raw.getField "purpose")
        (coalesce (raw.getField "document_purpose") .null) := rfl

theorem structuredOut_field_rag (raw p : JVal) :
    (structuredOut raw p).getField "rag_corpus" =
      coalesce (raw.getField "rag_corpus")
        (coalesce (raw.getField "corpus_name") .null) := rfl

theorem structuredOut_field_fallback (raw p : JVal) :
    (structuredOut raw p).getField "fallback" =
      (match raw.getField "fallback" with
       | .bool b => JVal.bool b | _ => .bool false) := rfl

theorem structuredOut_field_debug (raw p : JVal) :
    (structuredOut raw p).getField "debug" =
      coalesce (raw.getField "debug") .undef := rfl

theorem structuredOut_field_summary (raw p : JVal) :
    (structuredOut raw p).getField "summary" =
      coalesce (raw.getField "summary")
        (coalesce (raw.getField "executive_summary") .undef) := rfl

theorem structuredOut_field_absent (raw p : JVal) :
    (structuredOut raw p).getField "document_purpose" = .undef ∧
    (structuredOut raw p).getField "corpus_name" = .undef := ⟨rfl, rfl⟩

theorem coalesce_chain2_stable (a b : JVal) :
    coalesce (coalesce a (coalesce b .null)) (coalesce .undef .null) =
      coalesce a (coalesce b .null) := by
  cases a <;> cases b <;> rfl

theorem coalesce_chain1_stable (a : JVal) :
    coalesce (coalesce a .null) (coalesce .undef .null) = coalesce a .null := by
  cases a <;> rfl

theorem fallback_stable (v : JVal) :
    (match (match v with | JVal.bool b => JVal.bool b | _ => JVal.bool false) with
     | JVal.bool b => JVal.bool b | _ => JVal.bool false) =
      (match v with | JVal.bool b => JVal.bool b | _ => JVal.bool false) := by
  cases v <;> rfl

theorem execMatch_not_nullish (v : JVal) :
    (match v with | JVal.str s => JVal.str s | _ => JVal.str "").nullish = false := by
  cases v <;> rfl

theorem structuredOut_congr (p : JVal) {A B : JVal}
    (h1 : A.getField "doc_id" = B.getField "doc_id")
    (h2 : coalesce (A.getField "executive_summary")
        (match A.getField "summary" with | .str s => JVal.str s | _ => .str "") =
      coalesce (B.getField "executive_summary")
        (match B.getField "summary" with | .str s => JVal.str s | _ => .str ""))
    (h3 : coalesce (A.getField "purpose")
        (coalesce (A.getField "document_purpose") .null) =
      coalesce (B.getField "purpose")
        (coalesce (B.getField "document_purpose") .null))
    (h4 : coalesce (A.getField "rag_corpus")
        (coalesce (A.getField "corpus_name") .null) =
      coalesce (B.getField "rag_corpus")
        (coalesce (B.getField "corpus_name") .null))
    (h5 : (match A.getField "fallback" with
        | JVal.bool b => JVal.bool b | _ => JVal.bool false) =
      (match B.getField "fallback" with
        | JVal.bool b => JVal.bool b | _ => JVal.bool false))
    (h6 : coalesce (A.getField "debug") .undef = coalesce (B.getField "debug") .undef)
    (h7 : coalesce (A.getField "summary")
        (coalesce (A.getField "executive_summary") .undef) =
      coalesce (B.getField "summary")
        (coalesce (B.getField "executive_summary") .undef)) :
    structuredOut A p = structuredOut B p := by
  unfold structuredOut
  rw [h1, h2, h3, h4, h5, h6, h7]

theorem structuredPointsE_arr {raw p : JVal} (h : structuredPointsE raw = .ok p) :
    p.isArr = true := by
  unfold structuredPointsE at h
  by_cases ha : (raw.getField "points").isArr = true
  · rw [if_pos ha] at h
    cases h
    exact ha
  · rw [if_neg ha] at h
    cases hv : raw.getField "points" with
    | str s => rw [hv] at h; cases h; rfl
    | undef =>
      rw [hv] at h
      by_cases hs : (raw.getField "summary").truthy = true
      · rw [if_pos hs] at h
        cases hsp : splitIntoPointsJ (raw.getField "summary") with
        | error e => rw [hsp, exceptBind_error] at h; cases h
        | ok ps => rw [hsp, exceptBind_ok] at h; cases h; rfl
      · rw [if_neg hs] at h; cases h; rfl
    | null =>
      rw [hv] at h
      by_cases hs : (raw.getField "summary").truthy = true
      · rw [if_pos hs] at h
        cases hsp : splitIntoPointsJ (raw.getField "summary") with
        | error e => rw [hsp, exceptBind_error] at h; cases h
        | ok ps => rw [hsp, exceptBind_ok] at h; cases h; rfl
      · rw [if_neg hs] at h; cases h; rfl
    | bool b =>
      rw [hv] at h
      by_cases hs : (raw.getField "summary").truthy = true
      · rw [if_pos hs] at h
        cases hsp : splitIntoPointsJ (raw.getField "summary") with
        | error e => rw [hsp, exceptBind_error] at h; cases h
        | ok ps => rw [hsp, exceptBind_ok] at h; cases h; rfl
      · rw [if_neg hs] at h; cases h; rfl
    | num q =>
      rw [hv] at h
      by_cases hs : (raw.getField "summary").truthy = true
      · rw [if_pos hs] at h
        cases hsp : splitIntoPointsJ (raw.getField "summary") with
        | error e => rw [hsp, exceptBind_error] at h; cases h
        | ok ps => rw [hsp, exceptBind_ok] at h; cases h; rfl
      · rw [if_neg hs] at h; cases h; rfl
    | arr xs => rw [hv] at ha; simp [JVal.isArr] at ha
    | obj fs =>
      rw [hv] at h
      by_cases hs : (raw.getField "summary").truthy = true
      · rw [if_pos hs] at h
        cases hsp : splitIntoPointsJ (raw.getField "summary") with
        | error e => rw [hsp, exceptBind_error] at h; cases h
        | ok ps => rw [hsp, exceptBind_ok] at h; cases h; rfl
      · rw [if_neg hs] at h; cases h; rfl

theorem structuredPointsE_of_points_arr {o p : JVal}
    (hf : o.getField "points" = p) (hp : p.isArr = true) :
    structuredPointsE o = .ok p := by
  unfold structuredPointsE
  rw [hf, if_pos hp]

theorem structuredOut_truthy (raw p : JVal) : (structuredOut raw p).truthy = true := rfl

theorem structuredCond_out {p : JVal} (raw : JVal) (hp : p.isArr = true) :
    structuredCond (structuredOut raw p) = true := by
  unfold structuredCond
  rw [structuredOut_field_points, hp, Bool.or_true]

theorem legacyOut_field_docid (raw : JVal) (s : String) :
    (legacyOut raw s).getField "doc_id" = raw.getField "doc_id" := rfl

theorem legacyOut_field_exec (raw : JVal) (s : String) :
    (legacyOut raw s).getField "executive_summary" = .str s := rfl

theorem legacyOut_field_points (raw : JVal) (s : String) :
    (legacyOut raw s).getField "points" = strArr (splitIntoPoints s 10) := rfl

theorem legacyOut_field_purpose (raw : JVal) (s : String) :
    (legacyOut raw s).getField "purpose" = coalesce (raw.getField "purpose") .null := rfl

theorem legacyOut_field_rag (raw : JVal) (s : String) :
    (legacyOut raw s).getField "rag_corpus" =
      coalesce (raw.getField "rag_corpus")
        (coalesce (raw.getField "corpus_name") .null) := rfl

theorem legacyOut_field_fallback (raw : JVal) (s : String) :
    (legacyOut raw s).getField "fallback" =
      .bool (raw.getField "fallback").truthy := rfl

theorem legacyOut_field_debug (raw : JVal) (s : String) :
    (legacyOut raw s).getField "debug" = coalesce (raw.getField "debug") .undef := rfl

theorem legacyOut_field_summary (raw : JVal) (s : String) :
    (legacyOut raw s).getField "summary" = .str s := rfl

theorem legacyOut_field_absent (raw : JVal) (s : String) :
    (legacyOut raw s).getField "document_purpose" = .undef ∧
    (legacyOut raw s).getField "corpus_name" = .undef := ⟨rfl, rfl⟩

theorem legacyOut_truthy (raw : JVal) (s : String) : (legacyOut raw s).truthy = true := rfl

theorem strArr_isArr (ps : List String) : (strArr ps).isArr = true := rfl

theorem falsy_getField {raw : JVal} (h : raw.truthy = false) (k : String) :
    raw.getField k = .undef := by
  cases raw <;> simp_all [JVal.truthy, JVal.getField]

theorem structuredOut_legacyOut (raw : JVal) (s : String) :
    structuredOut (legacyOut raw s) (strArr (splitIntoPoints s 10)) = legacyOut raw s := by
  unfold structuredOut
  rw [legacyOut_field_docid, legacyOut_field_exec, legacyOut_field_summary,
    legacyOut_field_purpose, legacyOut_field_rag, legacyOut_field_fallback,
    legacyOut_field_debug, (legacyOut_field_absent raw s).1,
    (legacyOut_field_absent raw s).2]
  rw [coalesce_chain1_stable, coalesce_chain2_stable, coalesce_coalesce_undef]
  rfl

/-- Idempotence of summary normalization on the structured branch with a
non-nullish `summary` or `executive_summary`, and on the legacy
flat-string branch. -/
theorem summarizeIdem {raw o : JVal} (h : normalizeSummarizeResponse raw = .ok o)
    (hcase : (structuredCond raw = true ∧
        ((raw.getField "summary").nullish = false ∨
          (raw.getField "executive_summary").nullish = false)) ∨
      (structuredCond raw = false ∧ (raw.getField "summary").isStr = true)) :
    normalizeSummarizeResponse o = .ok o := by
  unfold normalizeSummarizeResponse at h
  rcases hcase with ⟨hsc, hnn⟩ | ⟨hsc, hstr⟩
  · by_cases ht : raw.truthy = false
    · rw [structuredCond_of_falsy ht] at hsc
      cases hsc
    · rw [if_neg ht, if_pos hsc] at h
      cases hp : structuredPointsE raw with
      | error e => rw [hp, exceptBind_error] at h; cases h
      | ok p =>
        rw [hp, exceptBind_ok] at h
        cases h
        have hparr := structuredPointsE_arr hp
        have hsum_nn : (coalesce (raw.getField "summary")
            (coalesce (raw.getField "executive_summary") .undef)).nullish = false := by
          rcases hnn with hS | hE
          · rw [coalesce_of_not_nullish _ hS]; exact hS
          · exact nullish_coalesce_right _
              (by rw [coalesce_of_not_nullish _ hE]; exact hE)
        unfold normalizeSummarizeResponse
        rw [if_neg (by rw [structuredOut_truthy]; simp)]
        rw [if_pos (structuredCond_out raw hparr)]
        rw [structuredPointsE_of_points_arr (structuredOut_field_points raw p) hparr,
          exceptBind_ok]
        congr 1
        apply structuredOut_congr p
        · exact structuredOut_field_docid raw p
        · rw [structuredOut_field_exec, structuredOut_field_summary]
          exact coalesce_of_not_nullish _
            (nullish_coalesce_right _ (execMatch_not_nullish _))
        · rw [structuredOut_field_purpose, (structuredOut_field_absent raw p).1]
          exact coalesce_chain2_stable _ _
        · rw [structuredOut_field_rag, (structuredOut_field_absent raw p).2]
          exact coalesce_chain2_stable _ _
        · rw [structuredOut_field_fallback]
          exact fallback_stable _
        · rw [structuredOut_field_debug]
          exact coalesce_coalesce_undef _
        · rw [structuredOut_field_summary, structuredOut_field_exec]
          exact coalesce_of_not_nullish _ hsum_nn
  · by_cases ht : raw.truthy = false
    · rw [falsy_getField ht] at hstr
      cases hstr
    · rw [if_neg ht, if_neg (by simp [hsc])] at h
      cases hv : raw.getField "summary" with
      | str s =>
        rw [hv] at h
        cases h
        unfold normalizeSummarizeResponse
        rw [if_neg (by rw [legacyOut_truthy]; simp)]
        rw [if_pos (by
          unfold structuredCond
          rw [legacyOut_field_points, strArr_isArr, Bool.or_true])]
        rw [structuredPointsE_of_points_arr (legacyOut_field_points raw s)
          (strArr_isArr _), exceptBind_ok]
        rw [structuredOut_legacyOut]
      | undef => rw [hv] at hstr; cases hstr
      | null => rw [hv] at hstr; cases hstr
      | bool b => rw [hv] at hstr; cases hstr
      | num q => rw [hv] at hstr; cases hstr
      | arr xs => rw [hv] at hstr; cases hstr
      | obj fs => rw [hv] at hstr; cases hstr

/-- Claim C9, counterexample: normalization is not idempotent.  Feeding
`normalizeSummarizeResponse`'s own output for the bare-string payload
"hello" back through it yields a different value: the string branch
omits the `purpose`, `rag_corpus`, `doc_id` and `debug` fields, which a
second pass adds (with `null`/`undefined` defaults). -/
theorem c9_idempotence_counterexample :
    Except.bind (normalizeSummarizeResponse (.str "hello")) normalizeSummarizeResponse
      ≠ normalizeSummarizeResponse (.str "hello") := by
  decide

/-- Claim C9, amended: risk-list normalization is idempotent on every
output whose items' `recommendations` fields are arrays (a truthy
non-array `recs` passthrough becomes `[]` on the second pass); summary
normalization is idempotent on the structured branch when the input has
a non-nullish `summary` or `executive_summary`, and on the legacy
flat-string branch.  In general a second normalization may alter
defaulted fields, as the counterexample shows. -/
theorem c9_idempotence_restricted :
    (∀ raw o : JVal, normalizeRisksResponse raw = .ok o →
      (∀ x ∈ risksOf o, (x.getField "recommendations").isArr = true) →
      normalizeRisksResponse o = .ok o) ∧
    (∀ raw o : JVal, normalizeSummarizeResponse raw = .ok o →
      ((structuredCond raw = true ∧
          ((raw.getField "summary").nullish = false ∨
            (raw.getField "executive_summary").nullish = false)) ∨
        (structuredCond raw = false ∧ (raw.getField "summary").isStr = true)) →
      normalizeSummarizeResponse o = .ok o) :=
  ⟨fun _ _ h hrec => risksIdem h hrec, fun _ _ h hc => summarizeIdem h hc⟩

theorem c9_idempotence_restricted_witness :
    normalizeRisksResponse (riskOut [] (encodeDocLevel (computeDocLevel []))) =
      .ok (riskOut [] (encodeDocLevel (computeDocLevel []))) ∧
    normalizeSummarizeResponse
        (legacyOut (.obj [("summary", .str "Rent is due monthly. Deposit required beforehand.")])
          "Rent is due monthly. Deposit required beforehand.") =
      .ok (legacyOut (.obj [("summary", .str "Rent is due monthly. Deposit required beforehand.")])
          "Rent is due monthly. Deposit required beforehand.") :=
  ⟨c9_idempotence_restricted.1 (.obj [("risks", .arr [])])
      (riskOut [] (encodeDocLevel (computeDocLevel []))) (by decide) (by decide),
   c9_idempotence_restricted.2
      (.obj [("summary", .str "Rent is due monthly. Deposit required beforehand.")])
      (legacyOut (.obj [("summary", .str "Rent is due monthly. Deposit required beforehand.")])
        "Rent is due monthly. Deposit required beforehand.")
      (by decide) (by decide)⟩
